import Mathlib

/-
Verification development for the PocketPortal agent orchestrator.

Shallow embedding of:
  * src/routing/intelligent_router.py   (IntelligentRouter)
  * src/routing/execution_engine.py     (ExecutionEngine)
  * src/pocketportal/core/engine.py     (AgentCoreV2.process_message, execute_tool)
  * src/pocketportal/tools/__init__.py  (ToolRegistry, ToolExecutionStats)

Components whose implementation files are absent from the repository snapshot
(ModelRegistry, TaskClassifier, ContextManager, model backends, circuit
breaker) are modelled from the specification; each such definition carries a
doc comment starting with "Modelled from the spec:".
-/

namespace PocketPortal

/-- Speed class bucket of a model (spec data model, §3). -/
inductive SpeedClass
  | INSTANT
  | FAST
  | BALANCED
  | SLOW
deriving DecidableEq, Repr

/-- Capability tags of a model (spec data model, §3). -/
inductive ModelCapability
  | GENERAL
  | CODE
  | MATH
  | REASONING
  | VISION
  | SPEED
deriving DecidableEq, Repr

/-- Modelled from the spec: ModelDescriptor / ModelMetadata, the catalog entry
of routing/model_registry.py (file absent from the snapshot).  Field names
follow the attribute accesses in intelligent_router.py and
execution_engine.py (model_id, display_name, backend, api_model_name,
capabilities, speed_class, cost, general_quality, available). -/
structure ModelMetadata where
  model_id : String
  display_name : String
  backend : String
  api_model_name : Option String
  capabilities : List ModelCapability
  speed_class : SpeedClass
  cost : ℚ
  general_quality : ℚ
  available : Bool
deriving DecidableEq, Repr

/-- Modelled from the spec: the Model Registry catalog (§4.A), a list of
descriptors in registration order. -/
structure ModelRegistry where
  models : List ModelMetadata
deriving DecidableEq, Repr

/-- Modelled from the spec: Registry lookup `get(modelId)` (§4.A); first
descriptor with the given id. -/
def ModelRegistry.get_model (reg : ModelRegistry) (id : String) : Option ModelMetadata :=
  reg.models.find? (fun m => m.model_id == id)

/-- Modelled from the spec: Registry `list()` (§4.A). -/
def ModelRegistry.get_all_models (reg : ModelRegistry) : List ModelMetadata :=
  reg.models

/-- Numeric rank of a speed class: INSTANT < FAST < BALANCED < SLOW (§4.A). -/
def SpeedClass.rank : SpeedClass → Nat
  | .INSTANT => 0
  | .FAST => 1
  | .BALANCED => 2
  | .SLOW => 3

/-- Strict comparison used by `fastestWith` (§4.A): by speed class rank, then
ascending cost, ties broken by lexicographic model id. -/
def fasterThan (a b : ModelMetadata) : Bool :=
  decide (a.speed_class.rank < b.speed_class.rank) ||
    (decide (a.speed_class.rank = b.speed_class.rank) &&
      (decide (a.cost < b.cost) ||
        (decide (a.cost = b.cost) && decide (a.model_id < b.model_id))))

/-- Strict comparison used by `bestQualityWith` (§4.A): descending quality
score, ties by ascending cost. -/
def betterQuality (a b : ModelMetadata) : Bool :=
  decide (b.general_quality < a.general_quality) ||
    (decide (a.general_quality = b.general_quality) && decide (a.cost < b.cost))

/-- Pick the minimum of a list under a strict Boolean comparison, keeping the
earliest element on full ties; `none` on the empty list. -/
def pickBest (better : α → α → Bool) (l : List α) : Option α :=
  l.foldl
    (fun acc x =>
      match acc with
      | none => some x
      | some y => if better x y then some x else some y)
    none

/-- Modelled from the spec: `fastestWith(capability?)` (§4.A): among the
descriptors with the requested capability (all descriptors when no capability
is given), the fastest by speed class, then cost, then model id; absent when
no candidate matches. -/
def ModelRegistry.get_fastest_model (reg : ModelRegistry)
    (cap : Option ModelCapability) : Option ModelMetadata :=
  pickBest fasterThan
    (reg.models.filter (fun m =>
      match cap with
      | none => true
      | some c => decide (c ∈ m.capabilities)))

/-- Modelled from the spec: `bestQualityWith(capability, maxCost)` (§4.A):
filters cost ≤ maxCost and capability ∈ capabilities, best by descending
quality score, ties by ascending cost; absent when no candidate matches. -/
def ModelRegistry.get_best_quality_model (reg : ModelRegistry)
    (cap : ModelCapability) (max_cost : ℚ) : Option ModelMetadata :=
  pickBest betterQuality
    (reg.models.filter (fun m =>
      decide (m.cost ≤ max_cost) && decide (cap ∈ m.capabilities)))

/-- Task complexity levels (task_classifier.py enum, referenced by
intelligent_router.py). -/
inductive TaskComplexity
  | TRIVIAL
  | SIMPLE
  | MODERATE
  | COMPLEX
  | EXPERT
deriving DecidableEq, Repr

/-- Task categories (task_classifier.py enum, referenced by
intelligent_router.py). -/
inductive TaskCategory
  | CHAT
  | CODE
  | MATH
  | ANALYSIS
  | CREATIVE
  | FACTUAL
deriving DecidableEq, Repr

/-- Modelled from the spec: string value of a complexity level, used only in
the human-readable reasoning text (task_classifier.py is absent from the
snapshot). -/
def TaskComplexity.value : TaskComplexity → String
  | .TRIVIAL => "trivial"
  | .SIMPLE => "simple"
  | .MODERATE => "moderate"
  | .COMPLEX => "complex"
  | .EXPERT => "expert"

/-- Modelled from the spec: string value of a category, used only in the
human-readable reasoning text. -/
def TaskCategory.value : TaskCategory → String
  | .CHAT => "chat"
  | .CODE => "code"
  | .MATH => "math"
  | .ANALYSIS => "analysis"
  | .CREATIVE => "creative"
  | .FACTUAL => "factual"

/-- Modelled from the spec: string value of a speed class, used only in the
human-readable reasoning text. -/
def SpeedClass.value : SpeedClass → String
  | .INSTANT => "instant"
  | .FAST => "fast"
  | .BALANCED => "balanced"
  | .SLOW => "slow"

/-- TaskClassification value produced per request (spec §3; fields as used by
intelligent_router.py). -/
structure TaskClassification where
  complexity : TaskComplexity
  category : TaskCategory
  requires_code : Bool
  requires_math : Bool
  requires_vision : Bool
  estimated_tokens : Nat
deriving DecidableEq, Repr

/-- Routing strategies (intelligent_router.py `RoutingStrategy`). -/
inductive RoutingStrategy
  | AUTO
  | SPEED
  | QUALITY
  | BALANCED
  | COST_OPTIMIZED
deriving DecidableEq, Repr

/-- Result of a routing decision (intelligent_router.py `RoutingDecision`). -/
structure RoutingDecision where
  model_id : String
  model_metadata : ModelMetadata
  classification : TaskClassification
  strategy_used : RoutingStrategy
  fallback_models : List String
  reasoning : String
deriving DecidableEq, Repr

/-- Stable descending insertion under a rational key: the new element goes
after every already-placed element of greater-or-equal key, matching the
stability of Python's `list.sort(key=…, reverse=True)`. -/
def insertDescBy (key : α → ℚ) (x : α) : List α → List α
  | [] => [x]
  | y :: ys => if key y < key x then x :: y :: ys else y :: insertDescBy key x ys

/-- Stable sort by descending rational key (Python `sort(key=…, reverse=True)`). -/
def sortDescBy (key : α → ℚ) (l : List α) : List α :=
  l.foldl (fun acc x => insertDescBy key x acc) []

/-- Stable ascending insertion under a rational key, matching the stability of
Python's `list.sort(key=…)`. -/
def insertAscBy (key : α → ℚ) (x : α) : List α → List α
  | [] => [x]
  | y :: ys => if key x < key y then x :: y :: ys else y :: insertAscBy key x ys

/-- Stable sort by ascending rational key (Python `sort(key=…)`). -/
def sortAscBy (key : α → ℚ) (l : List α) : List α :=
  l.foldl (fun acc x => insertAscBy key x acc) []

/-- Embeds `IntelligentRouter._get_any_available_model`: first available
model, else the first registered model even if marked unavailable, else the
`RuntimeError` raised when the registry is empty. -/
def get_any_available_model (reg : ModelRegistry) : Except String ModelMetadata :=
  match (reg.get_all_models).filter (fun m => m.available) with
  | m :: _ => .ok m
  | [] =>
    match reg.get_all_models with
    | m :: _ => .ok m
    | [] => .error "No models available in registry"

/-- Complexity-to-preferred-model-id table inside
`IntelligentRouter._route_auto` (the Python dict lookup with default
`["ollama_qwen25_7b"]` is total on the five complexity keys, so the default
never fires). -/
def complexity_model_map : TaskComplexity → List String
  | .TRIVIAL => ["ollama_qwen25_05b", "ollama_qwen25_1.5b"]
  | .SIMPLE => ["ollama_qwen25_1.5b", "ollama_llama32_3b", "ollama_qwen25_7b"]
  | .MODERATE => ["ollama_qwen25_7b", "ollama_qwen25_14b"]
  | .COMPLEX => ["ollama_qwen25_14b", "ollama_qwen25_32b"]
  | .EXPERT => ["ollama_qwen25_32b", "ollama_qwen25_14b"]

/-- Loop body of `_route_auto`: first preferred model id that resolves, is
available and has cost within the ceiling. -/
def findFirstAvailable (reg : ModelRegistry) (max_cost : ℚ) :
    List String → Option ModelMetadata
  | [] => none
  | id :: rest =>
    match reg.get_model id with
    | some m =>
      if m.available && decide (m.cost ≤ max_cost) then some m
      else findFirstAvailable reg max_cost rest
    | none => findFirstAvailable reg max_cost rest

/-- Embeds `IntelligentRouter._route_auto`. -/
def route_auto (reg : ModelRegistry) (c : TaskClassification) (max_cost : ℚ) :
    Except String ModelMetadata :=
  let preferred :=
    if c.category = TaskCategory.CODE ∧ c.requires_code = true then
      ["ollama_qwen25_coder", "ollama_deepseek_coder", "ollama_qwen25_14b"]
    else complexity_model_map c.complexity
  match findFirstAvailable reg max_cost preferred with
  | some m => .ok m
  | none =>
    match
      (if c.requires_code then
        match reg.get_fastest_model (some ModelCapability.CODE) with
        | some cf => if cf.available then some cf else none
        | none => none
      else none) with
    | some cf => .ok cf
    | none => get_any_available_model reg

/-- Embeds `IntelligentRouter._route_speed`. -/
def route_speed (reg : ModelRegistry) (c : TaskClassification) :
    Except String ModelMetadata :=
  let capability : Option ModelCapability :=
    if c.requires_code then some ModelCapability.CODE
    else if c.requires_math then some ModelCapability.MATH
    else none
  match reg.get_fastest_model capability with
  | some fastest => .ok fastest
  | none => get_any_available_model reg

/-- Embeds `IntelligentRouter._route_quality`. -/
def route_quality (reg : ModelRegistry) (c : TaskClassification) (max_cost : ℚ) :
    Except String ModelMetadata :=
  let capability : ModelCapability :=
    if c.requires_code then ModelCapability.CODE
    else if c.requires_math then ModelCapability.MATH
    else if c.category = TaskCategory.ANALYSIS then ModelCapability.REASONING
    else ModelCapability.GENERAL
  match reg.get_best_quality_model capability max_cost with
  | some best => .ok best
  | none => get_any_available_model reg

/-- Embeds `IntelligentRouter._route_balanced`. -/
def route_balanced (reg : ModelRegistry) (c : TaskClassification) (max_cost : ℚ) :
    Except String ModelMetadata :=
  if c.complexity = TaskComplexity.TRIVIAL ∨ c.complexity = TaskComplexity.SIMPLE then
    route_speed reg c
  else if c.complexity = TaskComplexity.COMPLEX ∨ c.complexity = TaskComplexity.EXPERT then
    route_quality reg c max_cost
  else
    route_auto reg c (max_cost * (7 / 10))

/-- Embeds `IntelligentRouter._route_cost_optimized`. -/
def route_cost_optimized (reg : ModelRegistry) (c : TaskClassification) :
    Except String ModelMetadata :=
  match sortAscBy (fun m => m.cost) ((reg.get_all_models).filter (fun m => m.available)) with
  | [] => get_any_available_model reg
  | cheapest :: rest =>
    if c.requires_code then
      match (cheapest :: rest).filter
          (fun m => decide (ModelCapability.CODE ∈ m.capabilities)) with
      | code_capable :: _ => .ok code_capable
      | [] => .ok cheapest
    else .ok cheapest

/-- Embeds `IntelligentRouter._build_fallback_chain`: up to 3 other available
models ordered by descending `general_quality`, excluding the primary. -/
def build_fallback_chain (reg : ModelRegistry) (primary : ModelMetadata) :
    List String :=
  ((sortDescBy (fun m => m.general_quality)
      ((reg.get_all_models).filter
        (fun m => m.available && m.model_id != primary.model_id))).take 3).map
    (fun m => m.model_id)

/-- Embeds `IntelligentRouter._generate_reasoning`. -/
def generate_reasoning (m : ModelMetadata) (c : TaskClassification) : String :=
  "Task: " ++ c.complexity.value ++ " complexity" ++
    " | Category: " ++ c.category.value ++
    " | Selected: " ++ m.display_name ++
    " | Speed: " ++ m.speed_class.value

/-- Strategy dispatch inside `IntelligentRouter.route` (the trailing `else`
branch of the Python chain is unreachable once the strategy enum is closed). -/
def routeByStrategy (reg : ModelRegistry) (strat : RoutingStrategy)
    (c : TaskClassification) (max_cost : ℚ) : Except String ModelMetadata :=
  match strat with
  | .AUTO => route_auto reg c max_cost
  | .SPEED => route_speed reg c
  | .QUALITY => route_quality reg c max_cost
  | .BALANCED => route_balanced reg c max_cost
  | .COST_OPTIMIZED => route_cost_optimized reg c

/-- The router state: a registry, a strategy, and the task classifier (a pure
function per spec §4.D; the classifier implementation file is absent from the
snapshot, so it is kept abstract). -/
structure IntelligentRouter where
  registry : ModelRegistry
  strategy : RoutingStrategy
  classifier : String → TaskClassification

/-- Embeds `IntelligentRouter.route`: classify, select by strategy, build the
fallback chain, and assemble the decision with its reasoning string.  The
`RuntimeError` raised by `_get_any_available_model` on an empty registry
propagates as `Except.error`. -/
def IntelligentRouter.route (rt : IntelligentRouter) (query : String)
    (max_cost : ℚ) : Except String RoutingDecision :=
  match routeByStrategy rt.registry rt.strategy (rt.classifier query) max_cost with
  | .error e => .error e
  | .ok model =>
    .ok
      { model_id := model.model_id
        model_metadata := model
        classification := rt.classifier query
        strategy_used := rt.strategy
        fallback_models := build_fallback_chain rt.registry model
        reasoning := generate_reasoning model (rt.classifier query) }

/-- Modelled from the spec: the result returned by a backend `generate` call
(routing/model_backends.py is absent; the field list is the one constructed in
`ExecutionEngine._execute_with_timeout`).  Timing is omitted. -/
structure GenerationResult where
  text : String
  tokens_generated : Nat
  success : Bool
  error : Option String
deriving DecidableEq, Repr

/-- Modelled from the spec: a backend adapter (§4.B) as seen by
`ExecutionEngine.execute`: an `is_available` probe outcome and a `generate`
function keyed by the api model name passed to it.  A timeout inside
`_execute_with_timeout` is represented as a failed `GenerationResult`. -/
structure Backend where
  is_available : Bool
  generate : String → GenerationResult

/-- Modelled from the spec: per-backend circuit breaker states (§4.C,
CircuitBreakerState).  No circuit breaker implementation exists in the
snapshot; this type is used to state the circuit-breaker claims against
`ExecutionEngine.execute`. -/
inductive CircuitState
  | CLOSED
  | OPEN
  | HALF_OPEN
deriving DecidableEq, Repr

/-- Result of a query execution (execution_engine.py `ExecutionResult`);
timing fields omitted. -/
structure ExecutionResult where
  success : Bool
  response : String
  model_used : String
  tokens_generated : Nat
  fallbacks_used : Nat
  error : Option String
deriving DecidableEq, Repr

/-- Observable step taken for one chain entry inside
`ExecutionEngine.execute`: the three `continue` skips, a failed generate
attempt, and a successful generate attempt. -/
inductive ChainEvent
  | skipNoModel (model_id : String)
  | skipNoBackend (model_id : String) (backend : String)
  | skipUnavailable (model_id : String) (backend : String)
  | genFailed (model_id : String) (backend : String)
  | genOk (model_id : String) (backend : String)
deriving DecidableEq, Repr

/-- The model name handed to `backend.generate`:
`model.api_model_name or model.model_id`. -/
def apiName (m : ModelMetadata) : String :=
  match m.api_model_name with
  | some n => n
  | none => m.model_id

/-- Embeds the chain loop of `ExecutionEngine.execute` (lines 87-134):
for each model id, resolve the descriptor (missing → skip), resolve the
backend from the engine's backend table (missing → skip), probe
`is_available` (false → skip), then generate; success returns the result with
`model_used` the display name and the accumulated `fallbacks_used`; failure
records the error, increments `fallbacks_used` and continues.  The source's
`except` branch behaves exactly like a failed generate (record error,
increment, continue), so an adapter exception is represented as a failed
`GenerationResult`.  An exhausted chain yields the `All models failed`
result.  The first component is the
trace of steps taken; `execute` below projects the result, so the two cannot
diverge. -/
def executeChain (reg : ModelRegistry) (backends : List (String × Backend)) :
    List String → Nat → Option String → List ChainEvent × ExecutionResult
  | [], fallbacks_used, last_error =>
    ([],
      { success := false
        response := ""
        model_used := "none"
        tokens_generated := 0
        fallbacks_used := fallbacks_used
        error := some ("All models failed. Last error: " ++ last_error.getD "None") })
  | model_id :: rest, fallbacks_used, last_error =>
    match reg.get_model model_id with
    | none =>
      let (tr, res) := executeChain reg backends rest fallbacks_used last_error
      (ChainEvent.skipNoModel model_id :: tr, res)
    | some model =>
      match (backends.find? (fun p => p.1 == model.backend)).map (fun p => p.2) with
      | none =>
        let (tr, res) := executeChain reg backends rest fallbacks_used last_error
        (ChainEvent.skipNoBackend model_id model.backend :: tr, res)
      | some backend =>
        if backend.is_available = false then
          let (tr, res) := executeChain reg backends rest fallbacks_used last_error
          (ChainEvent.skipUnavailable model_id model.backend :: tr, res)
        else
          let result := backend.generate (apiName model)
          if result.success then
            ([ChainEvent.genOk model_id model.backend],
              { success := true
                response := result.text
                model_used := model.display_name
                tokens_generated := result.tokens_generated
                fallbacks_used := fallbacks_used
                error := none })
          else
            let (tr, res) :=
              executeChain reg backends rest (fallbacks_used + 1) result.error
            (ChainEvent.genFailed model_id model.backend :: tr, res)

/-- Embeds `ExecutionEngine.execute` from a routing decision onward: the chain
is `[primary] ++ fallbacks`, walked with `fallbacks_used = 0` and no last
error. -/
def ExecutionEngine.execute (reg : ModelRegistry)
    (backends : List (String × Backend)) (decision : RoutingDecision) :
    ExecutionResult :=
  (executeChain reg backends (decision.model_id :: decision.fallback_models) 0 none).2

/-- Trace of `ExecutionEngine.execute`, the first component of the same
`executeChain` run. -/
def ExecutionEngine.executeTrace (reg : ModelRegistry)
    (backends : List (String × Backend)) (decision : RoutingDecision) :
    List ChainEvent :=
  (executeChain reg backends (decision.model_id :: decision.fallback_models) 0 none).1

/-- Recognizer for failed generate attempts in a chain trace. -/
def ChainEvent.isGenFailed : ChainEvent → Bool
  | .genFailed _ _ => true
  | _ => false

/-- Message stored in a chat context (spec §3; fields as passed by
`AgentCoreV2._save_user_message` / `_save_assistant_response`).  Timestamp
omitted. -/
structure Message where
  role : String
  content : String
  interface : String
deriving DecidableEq, Repr

/-- Keep the last `n` elements of a list (FIFO eviction of the oldest). -/
def lastN (n : Nat) (l : List α) : List α :=
  l.drop (l.length - n)

/-- Modelled from the spec: the Context Manager (§4.G), an in-memory map
`chatId → ChatContext` with FIFO eviction at `maxMessages` (default 50); the
implementation file core/context_manager.py is absent from the snapshot. -/
structure ContextManager where
  max_messages : Nat
  contexts : String → List Message

/-- Modelled from the spec: `ContextManager.add_message(chat_id, role,
content, interface)` appends to the chat's history and evicts the oldest
entries beyond `max_messages`. -/
def ContextManager.add_message (cm : ContextManager) (chat_id role content interface : String) :
    ContextManager :=
  { cm with
    contexts := fun c =>
      if c = chat_id then
        lastN cm.max_messages (cm.contexts chat_id ++ [⟨role, content, interface⟩])
      else cm.contexts c }

/-- Result from processing a message (engine.py `ProcessingResult`), reduced
to the fields the claims mention. -/
structure ProcessingResult where
  success : Bool
  response : String
  model_used : String
deriving DecidableEq, Repr

/-- Exceptions raised out of `AgentCoreV2.process_message`
(core/exceptions.py): `ModelNotAvailableError` when the execution engine
reports failure, and the generic `PocketPortalError` wrap of an unexpected
exception. -/
inductive PPError
  | modelNotAvailable (message : String)
  | unexpected (message : String)
deriving DecidableEq, Repr

/-- Result of the execution engine as consumed by
`AgentCoreV2._execute_with_routing` (fields `success`, `content`, `model_id`,
`error`). -/
structure EngineExecResult where
  success : Bool
  content : String
  model_id : String
  error : Option String
deriving DecidableEq, Repr

/-- Outcome of the routing/execution step as observed by `process_message`:
either the engine returned a result, or the step raised an exception. -/
inductive EngineOutcome
  | result (r : EngineExecResult)
  | raised (message : String)
deriving DecidableEq, Repr

/-- Embeds `AgentCoreV2.process_message` as a transformer of the context
state, with the routing/execution step abstracted by its outcome.  Steps in
source order: the user message is appended to the context first
(`_save_user_message`, before routing/execution); on engine success the
assistant message is appended and a `ProcessingResult` is returned; on engine
failure `_execute_with_routing` raises `ModelNotAvailableError`, which the
`except PocketPortalError` branch re-raises to the caller; an unexpected
exception is wrapped in `PocketPortalError` and raised.  Event emission,
statistics and logging are side effects not modelled.  The first component of
the value is the context state after the call, the second the returned value
or the raised exception. -/
def process_message (cm : ContextManager) (chat_id message interface : String)
    (outcome : EngineOutcome) : ContextManager × Except PPError ProcessingResult :=
  let cm1 := cm.add_message chat_id "user" message interface
  match outcome with
  | .result r =>
    if r.success then
      let cm2 := cm1.add_message chat_id "assistant" r.content interface
      (cm2, .ok { success := r.success, response := r.content, model_used := r.model_id })
    else
      (cm1, .error (.modelNotAvailable ("Model execution failed: " ++ r.error.getD "None")))
  | .raised e =>
    (cm1, .error (.unexpected ("Unexpected error: " ++ e)))

/-- Tool metadata (tools/base_tool.py as consumed by tools/__init__.py and
engine.py): name, confirmation flag, and the declared parameters with their
`required` flags in declaration order. -/
structure ToolMetadata where
  name : String
  requires_confirmation : Bool
  parameters : List (String × Bool)
deriving DecidableEq, Repr

/-- A registered tool instance: its metadata, an optional custom
`validate_parameters` method, and its `execute` method (an exception is the
`Except.error` case).  Parameters are a finite string map. -/
structure Tool where
  metadata : ToolMetadata
  custom_validator : Option (List (String × String) → Bool × Option String)
  execute : List (String × String) → Except String String

/-- The tool registry state (tools/__init__.py `ToolRegistry`): the `tools`
dict as an association list in insertion order. -/
structure ToolRegistry where
  tools : List (String × Tool)

/-- Embeds `ToolRegistry.get_tool`. -/
def ToolRegistry.get_tool (reg : ToolRegistry) (name : String) : Option Tool :=
  (reg.tools.find? (fun p => p.1 == name)).map (fun p => p.2)

/-- Embeds `ToolRegistry.validate_tool_parameters` (lines 283-306): unknown
tool → not valid; a custom `validate_parameters` method wins; otherwise every
declared-required parameter must be present. -/
def ToolRegistry.validate_tool_parameters (reg : ToolRegistry) (tool_name : String)
    (parameters : List (String × String)) : Bool × Option String :=
  match reg.get_tool tool_name with
  | none => (false, some ("Tool '" ++ tool_name ++ "' not found"))
  | some tool =>
    match tool.custom_validator with
    | some v => v parameters
    | none =>
      match tool.metadata.parameters.find?
          (fun p => p.2 && !(parameters.any (fun q => q.1 == p.1))) with
      | some p => (false, some ("Missing required parameter: " ++ p.1))
      | none => (true, none)

/-- Errors raised out of `AgentCoreV2.execute_tool` (all are
`ToolExecutionError` values in the source, distinguished by their message). -/
inductive ToolCallError
  | notFound (tool_name : String)
  | denied (tool_name : String)
  | execFailed (tool_name : String) (message : String)
deriving DecidableEq, Repr

/-- Embeds `AgentCoreV2.execute_tool` (engine.py lines 628-710): look the tool
up (missing → `ToolExecutionError` not-found); when the tool requires
confirmation and a confirmation middleware is injected, await the
confirmation outcome (here the parameter `approved`, the value returned by
`request_confirmation`) and raise the denied error when it is false;
otherwise invoke `tool.execute` directly, wrapping an exception.  The first
component records whether `tool.execute` was invoked. -/
def execute_tool (reg : ToolRegistry) (has_middleware : Bool) (approved : Bool)
    (tool_name : String) (parameters : List (String × String)) :
    Bool × Except ToolCallError String :=
  match reg.get_tool tool_name with
  | none => (false, .error (.notFound tool_name))
  | some tool =>
    if tool.metadata.requires_confirmation && has_middleware then
      if approved = false then (false, .error (.denied tool_name))
      else
        match tool.execute parameters with
        | .ok r => (true, .ok r)
        | .error e => (true, .error (.execFailed tool_name e))
    else
      match tool.execute parameters with
      | .ok r => (true, .ok r)
      | .error e => (true, .error (.execFailed tool_name e))

/-- Statistics for tool execution (tools/__init__.py `ToolExecutionStats`);
the `last_execution` timestamp is omitted and latencies are rationals. -/
structure ToolExecutionStats where
  total_executions : Nat
  successful_executions : Nat
  failed_executions : Nat
  total_execution_time : ℚ
deriving DecidableEq, Repr

/-- Fresh statistics (`ToolExecutionStats()` defaults). -/
def ToolExecutionStats.init : ToolExecutionStats :=
  { total_executions := 0
    successful_executions := 0
    failed_executions := 0
    total_execution_time := 0 }

/-- Embeds the per-stats effect of `ToolRegistry.record_execution` (lines
219-232): every call increments `total_executions`; a successful call
increments `successful_executions` and adds its elapsed time to
`total_execution_time`; a failed call increments `failed_executions`. -/
def record_execution (s : ToolExecutionStats) (success : Bool)
    (execution_time : ℚ) : ToolExecutionStats :=
  if success then
    { s with
      total_executions := s.total_executions + 1
      successful_executions := s.successful_executions + 1
      total_execution_time := s.total_execution_time + execution_time }
  else
    { s with
      total_executions := s.total_executions + 1
      failed_executions := s.failed_executions + 1 }

/-- Fold a sequence of `record_execution` calls (success flag, elapsed time)
over a stats value. -/
def applyExecutions (s : ToolExecutionStats) (evs : List (Bool × ℚ)) :
    ToolExecutionStats :=
  evs.foldl (fun a e => record_execution a e.1 e.2) s

/-- Refinement statement of the BALANCED strategy, written from the spec
(§4.E): SPEED for TRIVIAL and SIMPLE, QUALITY for COMPLEX and EXPERT, AUTO
with the cost ceiling scaled by 0.7 for MODERATE.  Compared against the
source's `route_balanced` in claim C8. -/
def balanced_per_spec (reg : ModelRegistry) (c : TaskClassification)
    (max_cost : ℚ) : Except String ModelMetadata :=
  match c.complexity with
  | .TRIVIAL => route_speed reg c
  | .SIMPLE => route_speed reg c
  | .COMPLEX => route_quality reg c max_cost
  | .EXPERT => route_quality reg c max_cost
  | .MODERATE => route_auto reg c (max_cost * (7 / 10))

/-- Empty in-memory context store with the default `max_context_messages`
of 50 (engine.py factory default), used as a concrete initial state. -/
def cmEmpty : ContextManager := ⟨50, fun _ => []⟩

/-- Default classification value used by the concrete scenarios. -/
def classDefault : TaskClassification := ⟨.MODERATE, .CHAT, false, false, false, 10⟩

/-- Concrete model riding on the `ollama` backend, for the circuit-breaker
scenario. -/
def modelC3 : ModelMetadata :=
  ⟨"qwen7b", "Qwen 7B", "ollama", none, [.GENERAL], .FAST, 1/10, 7/10, true⟩

/-- Registry for the circuit-breaker scenario. -/
def regC3 : ModelRegistry := ⟨[modelC3]⟩

/-- The `ollama` backend: probe succeeds, generate succeeds. -/
def backendC3 : Backend := ⟨true, fun _ => ⟨"ok", 3, true, none⟩⟩

/-- Backend table for the circuit-breaker scenario. -/
def backendsC3 : List (String × Backend) := [("ollama", backendC3)]

/-- Routing decision for the circuit-breaker scenario. -/
def decisionC3 : RoutingDecision := ⟨"qwen7b", modelC3, classDefault, .AUTO, [], ""⟩

/-- First chain model of the fallbacks-used scenario, on a down backend. -/
def modelC5a : ModelMetadata :=
  ⟨"m5a", "Model A", "backend-a", none, [.GENERAL], .FAST, 1/10, 1/2, true⟩

/-- Second chain model of the fallbacks-used scenario, on a healthy backend. -/
def modelC5b : ModelMetadata :=
  ⟨"m5b", "Model B", "backend-b", none, [.GENERAL], .FAST, 1/10, 3/5, true⟩

/-- Registry for the fallbacks-used scenario. -/
def regC5 : ModelRegistry := ⟨[modelC5a, modelC5b]⟩

/-- Backend whose availability probe fails. -/
def backendC5down : Backend := ⟨false, fun _ => ⟨"", 0, false, some "unreachable"⟩⟩

/-- Backend whose generate call succeeds with the text `hello`. -/
def backendC5ok : Backend := ⟨true, fun _ => ⟨"hello", 5, true, none⟩⟩

/-- Backend table for the fallbacks-used scenario. -/
def backendsC5 : List (String × Backend) :=
  [("backend-a", backendC5down), ("backend-b", backendC5ok)]

/-- Routing decision for the fallbacks-used scenario: primary `m5a`,
fallback `m5b`. -/
def decisionC5 : RoutingDecision := ⟨"m5a", modelC5a, classDefault, .AUTO, ["m5b"], ""⟩

/-- Single model for the routing-decision-invariants witness. -/
def modelC4 : ModelMetadata :=
  ⟨"w4", "W4", "b4", none, [.GENERAL], .FAST, 1/10, 1/2, true⟩

/-- Registry for the routing-decision-invariants witness. -/
def regC4 : ModelRegistry := ⟨[modelC4]⟩

/-- Classification for the routing-decision-invariants witness. -/
def classC4 : TaskClassification := ⟨.TRIVIAL, .CHAT, false, false, false, 1⟩

/-- Router (SPEED strategy) for the routing-decision-invariants witness. -/
def routerC4 : IntelligentRouter := ⟨regC4, .SPEED, fun _ => classC4⟩

/-- The decision `routerC4.route` computes on any query. -/
def decisionC4 : RoutingDecision :=
  ⟨"w4", modelC4, classC4, .SPEED, [],
    "Task: trivial complexity | Category: chat | Selected: W4 | Speed: fast"⟩

/-- Registered-but-unavailable model for the no-model-available scenarios. -/
def modelC6 : ModelMetadata :=
  ⟨"m6", "M6", "b6", none, [.GENERAL], .FAST, 1/10, 1/2, false⟩

/-- Registry whose only model is unavailable. -/
def regC6 : ModelRegistry := ⟨[modelC6]⟩

/-- Router over `regC6`. -/
def routerC6 : IntelligentRouter := ⟨regC6, .AUTO, fun _ => classDefault⟩

/-- Backend whose probe fails, for the no-model-available scenario. -/
def backendC6 : Backend := ⟨false, fun _ => ⟨"", 0, false, some "down"⟩⟩

/-- Backend table for the no-model-available scenario. -/
def backendsC6 : List (String × Backend) := [("b6", backendC6)]

/-- Router over an empty registry. -/
def routerEmpty : IntelligentRouter := ⟨⟨[]⟩, .AUTO, fun _ => classDefault⟩

/-- Tool with one required parameter `path` and no custom validator; its
execute method returns `tool ran`. -/
def toolC7 : Tool := ⟨⟨"disk_usage", false, [("path", true)]⟩, none, fun _ => .ok "tool ran"⟩

/-- Tool registry holding `toolC7`. -/
def toolRegC7 : ToolRegistry := ⟨[("disk_usage", toolC7)]⟩

/-- Registered-but-unavailable model for the unavailable-primary witness. -/
def modelC10 : ModelMetadata :=
  ⟨"m10", "M10", "b10", none, [.GENERAL], .BALANCED, 1/5, 3/5, false⟩

/-- Registry whose only model is unavailable, for the unavailable-primary
witness. -/
def regC10 : ModelRegistry := ⟨[modelC10]⟩

/-- Router (QUALITY strategy) over `regC10`. -/
def routerC10 : IntelligentRouter := ⟨regC10, .QUALITY, fun _ => classDefault⟩

section ListLemmas

variable {α : Type} {key : α → ℚ} {x a : α}

theorem mem_insertDescBy : ∀ {l : List α}, a ∈ insertDescBy key x l ↔ a = x ∨ a ∈ l
  | [] => by simp [insertDescBy]
  | y :: ys => by
    simp only [insertDescBy]
    by_cases h : key y < key x
    · simp [h]
    · simp only [if_neg h, List.mem_cons, mem_insertDescBy (l := ys)]
      tauto

theorem pairwise_insertDescBy :
    ∀ {l : List α}, l.Pairwise (fun a b => key b ≤ key a) →
      (insertDescBy key x l).Pairwise (fun a b => key b ≤ key a)
  | [], _ => by simp [insertDescBy]
  | y :: ys, h => by
    rcases List.pairwise_cons.mp h with ⟨hy, hys⟩
    simp only [insertDescBy]
    by_cases hxy : key y < key x
    · rw [if_pos hxy]
      refine List.pairwise_cons.mpr ⟨?_, h⟩
      intro z hz
      rcases List.mem_cons.mp hz with rfl | hz
      · exact le_of_lt hxy
      · exact le_trans (hy z hz) (le_of_lt hxy)
    · rw [if_neg hxy]
      refine List.pairwise_cons.mpr ⟨?_, pairwise_insertDescBy hys⟩
      intro z hz
      rcases mem_insertDescBy.mp hz with rfl | hz
      · exact le_of_not_lt hxy
      · exact hy z hz

theorem mem_foldl_insertDescBy :
    ∀ (l acc : List α),
      a ∈ l.foldl (fun acc x => insertDescBy key x acc) acc ↔ a ∈ acc ∨ a ∈ l
  | [], acc => by simp
  | x :: xs, acc => by
    simp only [List.foldl_cons, mem_foldl_insertDescBy xs, mem_insertDescBy,
      List.mem_cons]
    tauto

theorem mem_sortDescBy {l : List α} : a ∈ sortDescBy key l ↔ a ∈ l := by
  simp [sortDescBy, mem_foldl_insertDescBy]

theorem pairwise_foldl_insertDescBy :
    ∀ (l acc : List α), acc.Pairwise (fun a b => key b ≤ key a) →
      (l.foldl (fun acc x => insertDescBy key x acc) acc).Pairwise
        (fun a b => key b ≤ key a)
  | [], _, h => h
  | x :: xs, acc, h =>
    pairwise_foldl_insertDescBy xs (insertDescBy key x acc) (pairwise_insertDescBy h)

theorem pairwise_sortDescBy (key : α → ℚ) (l : List α) :
    (sortDescBy key l).Pairwise (fun a b => key b ≤ key a) :=
  pairwise_foldl_insertDescBy l [] (List.Pairwise.nil)

theorem mem_insertAscBy : ∀ {l : List α}, a ∈ insertAscBy key x l ↔ a = x ∨ a ∈ l
  | [] => by simp [insertAscBy]
  | y :: ys => by
    simp only [insertAscBy]
    by_cases h : key x < key y
    · simp [h]
    · simp only [if_neg h, List.mem_cons, mem_insertAscBy (l := ys)]
      tauto

theorem mem_foldl_insertAscBy :
    ∀ (l acc : List α),
      a ∈ l.foldl (fun acc x => insertAscBy key x acc) acc ↔ a ∈ acc ∨ a ∈ l
  | [], acc => by simp
  | x :: xs, acc => by
    simp only [List.foldl_cons, mem_foldl_insertAscBy xs, mem_insertAscBy,
      List.mem_cons]
    tauto

theorem mem_sortAscBy {l : List α} : a ∈ sortAscBy key l ↔ a ∈ l := by
  simp [sortAscBy, mem_foldl_insertAscBy]

theorem mem_lastN {n : Nat} {l : List α} (h : a ∈ lastN n l) : a ∈ l :=
  List.drop_subset _ l h

theorem countP_lastN_le (p : α → Bool) (n : Nat) (l : List α) :
    (lastN n l).countP p ≤ l.countP p :=
  (List.drop_sublist _ l).countP_le p

theorem mem_lastN_append_singleton {n : Nat} {l : List α} (h : 1 ≤ n) :
    x ∈ lastN n (l ++ [x]) := by
  unfold lastN
  have hlen : (l ++ [x]).length - n ≤ l.length := by
    simp only [List.length_append, List.length_singleton]
    omega
  rw [List.drop_append_of_le_length hlen]
  exact List.mem_append_right _ (List.mem_singleton.mpr rfl)

theorem pickBest_foldl_mem {better : α → α → Bool} {m : α} :
    ∀ (l : List α) (acc : Option α),
      l.foldl
        (fun acc x =>
          match acc with
          | none => some x
          | some y => if better x y then some x else some y) acc = some m →
      acc = some m ∨ m ∈ l
  | [], acc => by
    intro h
    exact Or.inl h
  | x :: xs, acc => by
    intro h
    rcases pickBest_foldl_mem xs _ h with hacc | hmem
    · match acc, hacc with
      | none, hacc =>
        dsimp only at hacc
        exact Or.inr (List.mem_cons.mpr (Or.inl (Option.some.inj hacc).symm))
      | some y, hacc =>
        dsimp only at hacc
        by_cases hb : better x y
        · rw [if_pos hb] at hacc
          exact Or.inr (List.mem_cons.mpr (Or.inl (Option.some.inj hacc).symm))
        · rw [if_neg hb] at hacc
          exact Or.inl hacc
    · exact Or.inr (List.mem_cons.mpr (Or.inr hmem))

theorem pickBest_mem {better : α → α → Bool} {l : List α} {m : α}
    (h : pickBest better l = some m) : m ∈ l := by
  rcases pickBest_foldl_mem l none h with hacc | hmem
  · exact absurd hacc (by simp)
  · exact hmem

end ListLemmas

section RouterLemmas

theorem get_model_mem {reg : ModelRegistry} {id : String} {m : ModelMetadata}
    (h : reg.get_model id = some m) : m ∈ reg.models :=
  List.mem_of_find?_eq_some h

theorem get_any_spec (reg : ModelRegistry) (h : reg.models ≠ []) :
    ∃ m, get_any_available_model reg = .ok m ∧ m ∈ reg.models := by
  cases hf : (reg.get_all_models).filter (fun m => m.available) with
  | cons m t =>
    have hm : m ∈ (reg.get_all_models).filter (fun m => m.available) := by
      rw [hf]; exact List.mem_cons_self _ _
    exact ⟨m, by simp [get_any_available_model, hf], (List.mem_filter.mp hm).1⟩
  | nil =>
    cases hg : reg.get_all_models with
    | nil => exact absurd hg h
    | cons m t =>
      rw [hg] at hf
      refine ⟨m, by simp [get_any_available_model, hg, hf], ?_⟩
      have : m ∈ reg.get_all_models := by rw [hg]; exact List.mem_cons_self _ _
      exact this

theorem findFirstAvailable_mem (reg : ModelRegistry) (mc : ℚ) :
    ∀ (ids : List String) {m : ModelMetadata},
      findFirstAvailable reg mc ids = some m → m ∈ reg.models
  | [], m => by simp [findFirstAvailable]
  | id :: rest, m => by
    intro h
    simp only [findFirstAvailable] at h
    cases hg : reg.get_model id with
    | none =>
      rw [hg] at h
      exact findFirstAvailable_mem reg mc rest h
    | some mm =>
      rw [hg] at h
      dsimp only at h
      by_cases hcond : (mm.available && decide (mm.cost ≤ mc)) = true
      · rw [if_pos hcond] at h
        cases h
        exact get_model_mem hg
      · rw [if_neg hcond] at h
        exact findFirstAvailable_mem reg mc rest h

theorem get_fastest_model_mem {reg : ModelRegistry} {cap : Option ModelCapability}
    {m : ModelMetadata} (h : reg.get_fastest_model cap = some m) : m ∈ reg.models := by
  simp only [ModelRegistry.get_fastest_model] at h
  exact (List.mem_filter.mp (pickBest_mem h)).1

theorem get_best_quality_model_mem {reg : ModelRegistry} {cap : ModelCapability}
    {mc : ℚ} {m : ModelMetadata} (h : reg.get_best_quality_model cap mc = some m) :
    m ∈ reg.models := by
  simp only [ModelRegistry.get_best_quality_model] at h
  exact (List.mem_filter.mp (pickBest_mem h)).1

theorem route_speed_spec (reg : ModelRegistry) (c : TaskClassification)
    (h : reg.models ≠ []) :
    ∃ m, route_speed reg c = .ok m ∧ m ∈ reg.models := by
  unfold route_speed
  cases hf : reg.get_fastest_model
      (if c.requires_code then some ModelCapability.CODE
       else if c.requires_math then some ModelCapability.MATH else none) with
  | some fastest => exact ⟨fastest, by simp [hf], get_fastest_model_mem hf⟩
  | none => simpa [hf] using get_any_spec reg h

theorem route_quality_spec (reg : ModelRegistry) (c : TaskClassification)
    (mc : ℚ) (h : reg.models ≠ []) :
    ∃ m, route_quality reg c mc = .ok m ∧ m ∈ reg.models := by
  unfold route_quality
  cases hf : reg.get_best_quality_model
      (if c.requires_code then ModelCapability.CODE
       else if c.requires_math then ModelCapability.MATH
       else if c.category = TaskCategory.ANALYSIS then ModelCapability.REASONING
       else ModelCapability.GENERAL) mc with
  | some best => exact ⟨best, by simp [hf], get_best_quality_model_mem hf⟩
  | none => simpa [hf] using get_any_spec reg h

theorem route_auto_spec (reg : ModelRegistry) (c : TaskClassification)
    (mc : ℚ) (h : reg.models ≠ []) :
    ∃ m, route_auto reg c mc = .ok m ∧ m ∈ reg.models := by
  unfold route_auto
  cases hff : findFirstAvailable reg mc
      (if c.category = TaskCategory.CODE ∧ c.requires_code = true then
        ["ollama_qwen25_coder", "ollama_deepseek_coder", "ollama_qwen25_14b"]
      else complexity_model_map c.complexity) with
  | some m => exact ⟨m, by simp [hff], findFirstAvailable_mem reg mc _ hff⟩
  | none =>
    cases hcf :
        (if c.requires_code then
          match reg.get_fastest_model (some ModelCapability.CODE) with
          | some cf => if cf.available then some cf else none
          | none => none
        else none) with
    | some cf =>
      refine ⟨cf, by simp [hff, hcf], ?_⟩
      by_cases hrc : c.requires_code = true
      · rw [if_pos hrc] at hcf
        cases hgf : reg.get_fastest_model (some ModelCapability.CODE) with
        | none => rw [hgf] at hcf; cases hcf
        | some cf0 =>
          rw [hgf] at hcf
          dsimp only at hcf
          by_cases hav : cf0.available = true
          · rw [if_pos hav] at hcf
            cases hcf
            exact get_fastest_model_mem hgf
          · rw [if_neg hav] at hcf; cases hcf
      · rw [if_neg hrc] at hcf; cases hcf
    | none => simpa [hff, hcf] using get_any_spec reg h

theorem route_cost_optimized_spec (reg : ModelRegistry) (c : TaskClassification)
    (h : reg.models ≠ []) :
    ∃ m, route_cost_optimized reg c = .ok m ∧ m ∈ reg.models := by
  unfold route_cost_optimized
  cases hs : sortAscBy (fun m => m.cost)
      ((reg.get_all_models).filter (fun m => m.available)) with
  | nil => simpa [hs] using get_any_spec reg h
  | cons cheapest rest =>
    have hcm : cheapest ∈ reg.models := by
      have h1 : cheapest ∈ sortAscBy (fun m => m.cost)
          ((reg.get_all_models).filter (fun m => m.available)) := by
        rw [hs]; exact List.mem_cons_self _ _
      exact (List.mem_filter.mp (mem_sortAscBy.mp h1)).1
    by_cases hrc : c.requires_code = true
    · cases hcc : (cheapest :: rest).filter
          (fun m => decide (ModelCapability.CODE ∈ m.capabilities)) with
      | cons q t =>
        refine ⟨q, by simp [hs, hrc, hcc], ?_⟩
        have hq : q ∈ (cheapest :: rest).filter
            (fun m => decide (ModelCapability.CODE ∈ m.capabilities)) := by
          rw [hcc]; exact List.mem_cons_self _ _
        have hq2 : q ∈ sortAscBy (fun m => m.cost)
            ((reg.get_all_models).filter (fun m => m.available)) := by
          rw [hs]; exact (List.mem_filter.mp hq).1
        exact (List.mem_filter.mp (mem_sortAscBy.mp hq2)).1
      | nil => exact ⟨cheapest, by simp [hs, hrc, hcc], hcm⟩
    · exact ⟨cheapest, by simp [hs, hrc], hcm⟩

theorem route_balanced_total (reg : ModelRegistry) (c : TaskClassification)
    (mc : ℚ) (h : reg.models ≠ []) :
    ∃ m, route_balanced reg c mc = .ok m ∧ m ∈ reg.models := by
  unfold route_balanced
  by_cases h1 : c.complexity = TaskComplexity.TRIVIAL ∨ c.complexity = TaskComplexity.SIMPLE
  · simpa [h1] using route_speed_spec reg c h
  · by_cases h2 : c.complexity = TaskComplexity.COMPLEX ∨ c.complexity = TaskComplexity.EXPERT
    · simpa [h1, h2] using route_quality_spec reg c mc h
    · simpa [h1, h2] using route_auto_spec reg c (mc * (7 / 10)) h

theorem routeByStrategy_spec (reg : ModelRegistry) (strat : RoutingStrategy)
    (c : TaskClassification) (mc : ℚ) (h : reg.models ≠ []) :
    ∃ m, routeByStrategy reg strat c mc = .ok m ∧ m ∈ reg.models := by
  cases strat with
  | AUTO => exact route_auto_spec reg c mc h
  | SPEED => exact route_speed_spec reg c h
  | QUALITY => exact route_quality_spec reg c mc h
  | BALANCED => exact route_balanced_total reg c mc h
  | COST_OPTIMIZED => exact route_cost_optimized_spec reg c h

theorem route_ok_elim {rt : IntelligentRouter} {q : String} {mc : ℚ}
    {d : RoutingDecision} (h : rt.route q mc = .ok d) :
    ∃ m, routeByStrategy rt.registry rt.strategy (rt.classifier q) mc = .ok m ∧
      d.model_id = m.model_id ∧
      d.fallback_models = build_fallback_chain rt.registry m := by
  unfold IntelligentRouter.route at h
  cases hrb : routeByStrategy rt.registry rt.strategy (rt.classifier q) mc with
  | error e => rw [hrb] at h; cases h
  | ok m =>
    rw [hrb] at h
    cases h
    exact ⟨m, rfl, rfl, rfl⟩

theorem route_total {rt : IntelligentRouter} (q : String) (mc : ℚ)
    (h : rt.registry.models ≠ []) :
    ∃ d, rt.route q mc = .ok d ∧
      ∃ m, m ∈ rt.registry.models ∧ d.model_id = m.model_id := by
  obtain ⟨m, hm, hmem⟩ := routeByStrategy_spec rt.registry rt.strategy (rt.classifier q) mc h
  refine ⟨{ model_id := m.model_id
            model_metadata := m
            classification := rt.classifier q
            strategy_used := rt.strategy
            fallback_models := build_fallback_chain rt.registry m
            reasoning := generate_reasoning m (rt.classifier q) }, ?_, m, hmem, rfl⟩
  unfold IntelligentRouter.route
  rw [hm]

theorem build_fallback_chain_spec (reg : ModelRegistry) (primary : ModelMetadata) :
    primary.model_id ∉ build_fallback_chain reg primary ∧
    (build_fallback_chain reg primary).length ≤ 3 ∧
    ∃ ms : List ModelMetadata,
      build_fallback_chain reg primary = ms.map (fun m => m.model_id) ∧
      (∀ m ∈ ms, m ∈ reg.models ∧ m.available = true) ∧
      ms.Pairwise (fun a b => b.general_quality ≤ a.general_quality) := by
  have hmem : ∀ m ∈ (sortDescBy (fun m => m.general_quality)
      ((reg.get_all_models).filter
        (fun m => m.available && m.model_id != primary.model_id))).take 3,
      m ∈ reg.models ∧ m.available = true ∧ m.model_id ≠ primary.model_id := by
    intro m hm
    have h1 := mem_sortDescBy.mp (List.take_subset 3 _ hm)
    have h2 := List.mem_filter.mp h1
    have h3 := h2.2
    rw [Bool.and_eq_true] at h3
    exact ⟨h2.1, h3.1, by simpa using h3.2⟩
  have hnotmem : primary.model_id ∉ build_fallback_chain reg primary := by
    intro hbad
    obtain ⟨x, hx, hxid⟩ := List.mem_map.mp hbad
    exact absurd hxid (hmem x hx).2.2
  have hlen : (build_fallback_chain reg primary).length ≤ 3 := by
    rw [build_fallback_chain, List.length_map]
    exact le_trans (List.length_take_le 3 _) (le_refl 3)
  have hpw : ((sortDescBy (fun m : ModelMetadata => m.general_quality)
      ((reg.get_all_models).filter
        (fun m : ModelMetadata => m.available && m.model_id != primary.model_id))).take 3).Pairwise
      (fun a b => b.general_quality ≤ a.general_quality) :=
    List.Pairwise.sublist (List.take_sublist 3 _)
      (pairwise_sortDescBy (fun m : ModelMetadata => m.general_quality) _)
  exact ⟨hnotmem, hlen,
    (sortDescBy (fun m : ModelMetadata => m.general_quality)
      ((reg.get_all_models).filter
        (fun m : ModelMetadata => m.available && m.model_id != primary.model_id))).take 3,
    rfl, fun m hm => ⟨(hmem m hm).1, (hmem m hm).2.1⟩, hpw⟩

end RouterLemmas

section EngineLemmas

theorem executeChain_backends_down {reg : ModelRegistry}
    {bks : List (String × Backend)} (hb : ∀ p ∈ bks, p.2.is_available = false) :
    ∀ (chain : List String) (fb : Nat) (le : Option String),
      (executeChain reg bks chain fb le).2.success = false := by
  intro chain
  induction chain with
  | nil => intro fb le; rfl
  | cons id rest ih =>
    intro fb le
    simp only [executeChain]
    cases hg : reg.get_model id with
    | none =>
      rcases hE : executeChain reg bks rest fb le with ⟨tr, res⟩
      have := ih fb le
      rw [hE] at this
      simpa [hE] using this
    | some model =>
      cases hbk : (bks.find? (fun p => p.1 == model.backend)).map (fun p => p.2) with
      | none =>
        rcases hE : executeChain reg bks rest fb le with ⟨tr, res⟩
        have := ih fb le
        rw [hE] at this
        simpa [hbk, hE] using this
      | some backend =>
        have hdown : backend.is_available = false := by
          rcases Option.map_eq_some'.mp hbk with ⟨p, hp, hpb⟩
          have := hb p (List.mem_of_find?_eq_some hp)
          rw [hpb] at this
          exact this
        rcases hE : executeChain reg bks rest fb le with ⟨tr, res⟩
        have := ih fb le
        rw [hE] at this
        simpa [hbk, hdown, hE] using this

theorem executeChain_success_shape {reg : ModelRegistry}
    {bks : List (String × Backend)} :
    ∀ (chain : List String) (fb : Nat) (le : Option String)
      (tr : List ChainEvent) (res : ExecutionResult),
      executeChain reg bks chain fb le = (tr, res) → res.success = true →
      res.fallbacks_used = fb + (tr.filter ChainEvent.isGenFailed).length ∧
      ∃ id m b, id ∈ chain ∧ reg.get_model id = some m ∧
        (bks.find? (fun p => p.1 == m.backend)).map (fun p => p.2) = some b ∧
        (b.generate (apiName m)).success = true ∧
        res.model_used = m.display_name ∧
        res.response = (b.generate (apiName m)).text := by
  intro chain
  induction chain with
  | nil =>
    intro fb le tr res hE hs
    simp only [executeChain] at hE
    cases hE
    cases hs
  | cons id rest ih =>
    intro fb le tr res hE hs
    simp only [executeChain] at hE
    cases hg : reg.get_model id with
    | none =>
      rw [hg] at hE
      rcases hrec : executeChain reg bks rest fb le with ⟨tr0, res0⟩
      rw [hrec] at hE
      dsimp only at hE
      cases hE
      obtain ⟨hfb, idw, m, b, hidw, hrest⟩ := ih fb le tr0 res hrec hs
      exact ⟨by simpa [ChainEvent.isGenFailed] using hfb,
        idw, m, b, List.mem_cons_of_mem _ hidw, hrest⟩
    | some model =>
      rw [hg] at hE
      dsimp only at hE
      cases hbk : (bks.find? (fun p => p.1 == model.backend)).map (fun p => p.2) with
      | none =>
        rw [hbk] at hE
        rcases hrec : executeChain reg bks rest fb le with ⟨tr0, res0⟩
        rw [hrec] at hE
        dsimp only at hE
        cases hE
        obtain ⟨hfb, idw, m, b, hidw, hrest⟩ := ih fb le tr0 res hrec hs
        exact ⟨by simpa [ChainEvent.isGenFailed] using hfb,
          idw, m, b, List.mem_cons_of_mem _ hidw, hrest⟩
      | some backend =>
        rw [hbk] at hE
        dsimp only at hE
        by_cases hav : backend.is_available = false
        · rw [if_pos hav] at hE
          rcases hrec : executeChain reg bks rest fb le with ⟨tr0, res0⟩
          rw [hrec] at hE
          dsimp only at hE
          cases hE
          obtain ⟨hfb, idw, m, b, hidw, hrest⟩ := ih fb le tr0 res hrec hs
          exact ⟨by simpa [ChainEvent.isGenFailed] using hfb,
            idw, m, b, List.mem_cons_of_mem _ hidw, hrest⟩
        · rw [if_neg hav] at hE
          by_cases hgen : (backend.generate (apiName model)).success = true
          · rw [if_pos hgen] at hE
            cases hE
            refine ⟨by simp [ChainEvent.isGenFailed], id, model, backend,
              List.mem_cons_self _ _, hg, hbk, hgen, rfl, rfl⟩
          · rw [if_neg hgen] at hE
            rcases hrec : executeChain reg bks rest (fb + 1)
                (backend.generate (apiName model)).error with ⟨tr0, res0⟩
            rw [hrec] at hE
            dsimp only at hE
            cases hE
            obtain ⟨hfb, idw, m, b, hidw, hrest⟩ :=
              ih (fb + 1) (backend.generate (apiName model)).error tr0 res hrec hs
            refine ⟨?_, idw, m, b, List.mem_cons_of_mem _ hidw, hrest⟩
            rw [hfb]
            simp [ChainEvent.isGenFailed]
            omega

end EngineLemmas

section StatsLemmas

theorem applyExecutions_total_eq :
    ∀ (evs : List (Bool × ℚ)) (s : ToolExecutionStats),
      s.total_executions = s.successful_executions + s.failed_executions →
      (applyExecutions s evs).total_executions =
        (applyExecutions s evs).successful_executions +
          (applyExecutions s evs).failed_executions
  | [], s, h => h
  | e :: evs, s, h => by
    simp only [applyExecutions, List.foldl_cons]
    apply applyExecutions_total_eq evs
    cases hb : e.1 <;> simp [record_execution, hb] <;> omega

theorem applyExecutions_monotone :
    ∀ (evs : List (Bool × ℚ)) (s : ToolExecutionStats),
      s.total_executions ≤ (applyExecutions s evs).total_executions ∧
      s.successful_executions ≤ (applyExecutions s evs).successful_executions ∧
      s.failed_executions ≤ (applyExecutions s evs).failed_executions
  | [], s => ⟨le_refl _, le_refl _, le_refl _⟩
  | e :: evs, s => by
    simp only [applyExecutions, List.foldl_cons]
    have hrec := applyExecutions_monotone evs (record_execution s e.1 e.2)
    have hstep : s.total_executions ≤ (record_execution s e.1 e.2).total_executions ∧
        s.successful_executions ≤ (record_execution s e.1 e.2).successful_executions ∧
        s.failed_executions ≤ (record_execution s e.1 e.2).failed_executions := by
      cases hb : e.1 <;> simp [record_execution, hb]
    exact ⟨le_trans hstep.1 hrec.1, le_trans hstep.2.1 hrec.2.1,
      le_trans hstep.2.2 hrec.2.2⟩

theorem applyExecutions_time :
    ∀ (evs : List (Bool × ℚ)) (s : ToolExecutionStats),
      (applyExecutions s evs).total_execution_time =
        s.total_execution_time + ((evs.filter (fun e => e.1)).map (fun e => e.2)).sum
  | [], s => by simp [applyExecutions]
  | e :: evs, s => by
    simp only [applyExecutions, List.foldl_cons]
    rw [show List.foldl (fun a e => record_execution a e.1 e.2)
        (record_execution s e.1 e.2) evs =
      applyExecutions (record_execution s e.1 e.2) evs from rfl]
    rw [applyExecutions_time evs]
    cases hb : e.1
    · simp [record_execution, hb]
    · simp [record_execution, hb]
      ring

end StatsLemmas

/-- C1 (counterexample): at a concrete input whose execution step fails,
`process_message` does not return a `ProcessingResult`; it propagates a
`PocketPortalError` (`ModelNotAvailableError`) to the caller, refuting the
claim that the orchestrator never throws and returns `success=false`
instead. -/
theorem c1_counterexample :
    (process_message cmEmpty "chat-1" "hello" "telegram"
      (.result ⟨false, "", "", some "All models failed. Last error: None"⟩)).2 =
    Except.error (PPError.modelNotAvailable
      "Model execution failed: All models failed. Last error: None") := rfl

/-- C1 (amended): every `process_message` call either returns a
`ProcessingResult` with `success = true` or raises a `PocketPortalError`;
in particular, when the execution engine reports failure the call raises
`ModelNotAvailableError` carrying the engine error, and never returns a
result with `success = false`. -/
theorem c1_process_message_failure_raises :
    (∀ (cm : ContextManager) (chat msg intf : String) (o : EngineOutcome),
      (∃ res, (process_message cm chat msg intf o).2 = Except.ok res ∧
        res.success = true) ∨
      (∃ e, (process_message cm chat msg intf o).2 = Except.error e)) ∧
    (∀ (cm : ContextManager) (chat msg intf content mid : String)
        (err : Option String),
      (process_message cm chat msg intf (.result ⟨false, content, mid, err⟩)).2 =
        Except.error (PPError.modelNotAvailable
          ("Model execution failed: " ++ err.getD "None"))) := by
  constructor
  · intro cm chat msg intf o
    cases o with
    | result r =>
      by_cases hs : r.success = true
      · exact Or.inl ⟨(⟨r.success, r.content, r.model_id⟩ : ProcessingResult),
          by simp [process_message, hs], hs⟩
      · exact Or.inr ⟨PPError.modelNotAvailable
          ("Model execution failed: " ++ r.error.getD "None"),
          by simp [process_message, hs]⟩
    | raised e =>
      exact Or.inr ⟨PPError.unexpected ("Unexpected error: " ++ e),
        by simp [process_message]⟩
  · intro cm chat msg intf content mid err
    rfl

/-- C2: for every `process_message` run whose execution step fails, the user
message was already appended to that chat's context (it survives the
failure), and the run appended no assistant message: the count of
assistant-role messages in the chat does not increase. -/
theorem c2_user_message_saved_before_execution
    (cm : ContextManager) (chat msg intf content mid : String)
    (err : Option String) (h : 1 ≤ cm.max_messages) :
    (⟨"user", msg, intf⟩ : Message) ∈
      ((process_message cm chat msg intf
        (.result ⟨false, content, mid, err⟩)).1).contexts chat ∧
    (((process_message cm chat msg intf
        (.result ⟨false, content, mid, err⟩)).1).contexts chat).countP
        (fun x => x.role == "assistant") ≤
      (cm.contexts chat).countP (fun x => x.role == "assistant") := by
  have hctx : ((process_message cm chat msg intf
      (.result ⟨false, content, mid, err⟩)).1).contexts chat =
      lastN cm.max_messages (cm.contexts chat ++ [⟨"user", msg, intf⟩]) := by
    simp [process_message, ContextManager.add_message]
  rw [hctx]
  refine ⟨mem_lastN_append_singleton h, ?_⟩
  calc (lastN cm.max_messages
        (cm.contexts chat ++ [(⟨"user", msg, intf⟩ : Message)])).countP
        (fun x => x.role == "assistant")
      ≤ ((cm.contexts chat ++ [(⟨"user", msg, intf⟩ : Message)])).countP
        (fun x => x.role == "assistant") := countP_lastN_le _ _ _
    _ = (cm.contexts chat).countP (fun x => x.role == "assistant") := by
        simp [List.countP_append]

/-- C2 witness: concrete failing run on an empty context with the default
bound. -/
theorem c2_witness :
    1 ≤ cmEmpty.max_messages ∧
    ((⟨"user", "hello", "telegram"⟩ : Message) ∈
      ((process_message cmEmpty "c" "hello" "telegram"
        (.result ⟨false, "", "", some "All models failed"⟩)).1).contexts "c" ∧
    (((process_message cmEmpty "c" "hello" "telegram"
        (.result ⟨false, "", "", some "All models failed"⟩)).1).contexts "c").countP
        (fun x => x.role == "assistant") ≤
      (cmEmpty.contexts "c").countP (fun x => x.role == "assistant")) :=
  ⟨by norm_num [cmEmpty],
    c2_user_message_saved_before_execution cmEmpty "c" "hello" "telegram" "" ""
      (some "All models failed") (by norm_num [cmEmpty])⟩

/-- C3: `ExecutionEngine.execute` consults no circuit breaker: at a concrete
input, a generate call is forwarded to the `ollama` backend no matter what
state any circuit-breaker map assigns to it — in particular while it is
OPEN.  This contradicts the claim (and spec §4.C) that an OPEN circuit never
forwards a generate call; the orchestrator even reads
`execution_engine.circuit_breaker` (engine.py:532), an attribute this
engine does not have. -/
theorem c3_generate_forwarded_despite_open_circuit
    (cb : String → CircuitState) (h : cb "ollama" = CircuitState.OPEN) :
    ChainEvent.genOk "qwen7b" "ollama" ∈
      ExecutionEngine.executeTrace regC3 backendsC3 decisionC3 := by
  decide

/-- C3 witness: the all-OPEN circuit map. -/
theorem c3_witness :
    (fun _ : String => CircuitState.OPEN) "ollama" = CircuitState.OPEN ∧
    ChainEvent.genOk "qwen7b" "ollama" ∈
      ExecutionEngine.executeTrace regC3 backendsC3 decisionC3 :=
  ⟨rfl, c3_generate_forwarded_despite_open_circuit
    (fun _ => CircuitState.OPEN) rfl⟩

/-- C4: every decision returned by `IntelligentRouter.route` has a fallback
list that excludes the primary model id, has length at most 3, consists of
models registered (and available) in the registry at decision time, and is
ordered by descending quality score. -/
theorem c4_routing_decision_invariants (rt : IntelligentRouter) (q : String)
    (mc : ℚ) (d : RoutingDecision) (h : rt.route q mc = Except.ok d) :
    d.model_id ∉ d.fallback_models ∧
    d.fallback_models.length ≤ 3 ∧
    ∃ ms : List ModelMetadata,
      d.fallback_models = ms.map (fun m => m.model_id) ∧
      (∀ m ∈ ms, m ∈ rt.registry.models ∧ m.available = true) ∧
      ms.Pairwise (fun a b => b.general_quality ≤ a.general_quality) := by
  obtain ⟨m, hm, hid, hfb⟩ := route_ok_elim h
  obtain ⟨h1, h2, ms, hmap, hmem, hpw⟩ := build_fallback_chain_spec rt.registry m
  rw [hid, hfb]
  exact ⟨h1, h2, ms, hmap, hmem, hpw⟩

/-- C4 witness: a concrete routed decision. -/
theorem c4_witness :
    routerC4.route "hi" 1 = Except.ok decisionC4 ∧
    (decisionC4.model_id ∉ decisionC4.fallback_models ∧
     decisionC4.fallback_models.length ≤ 3 ∧
     ∃ ms : List ModelMetadata,
       decisionC4.fallback_models = ms.map (fun m => m.model_id) ∧
       (∀ m ∈ ms, m ∈ routerC4.registry.models ∧ m.available = true) ∧
       ms.Pairwise (fun a b => b.general_quality ≤ a.general_quality)) :=
  ⟨rfl, c4_routing_decision_invariants routerC4 "hi" 1 decisionC4 rfl⟩

/-- C5 (counterexample): a successful run in which the producing model sits
at chain index 1 (the first fallback) while `fallbacks_used` is 0, because
the primary was skipped by the availability probe rather than failing a
generate attempt; this refutes `fallbacksUsed = chain index`.  `modelUsed`
is still the display name of the producing model. -/
theorem c5_counterexample :
    ExecutionEngine.execute regC5 backendsC5 decisionC5 =
      { success := true, response := "hello", model_used := "Model B",
        tokens_generated := 5, fallbacks_used := 0, error := none } ∧
    (decisionC5.model_id :: decisionC5.fallback_models).indexOf "m5b" = 1 ∧
    regC5.get_model "m5b" = some modelC5b ∧
    modelC5b.display_name = "Model B" ∧
    (0 : Nat) ≠ 1 :=
  ⟨rfl, by decide, rfl, rfl, by decide⟩

/-- C5 (amended): on every successful `ExecutionEngine.execute` run,
`model_used` is the display name of the model whose backend generate call
succeeded (and `response` its text), and `fallbacks_used` equals the number
of models in the chain that failed a generate attempt — skipped models
(missing descriptor, unknown backend, availability probe false) are not
counted. -/
theorem c5_fallbacks_used_counts_failed_attempts
    (reg : ModelRegistry) (bks : List (String × Backend)) (d : RoutingDecision)
    (h : (ExecutionEngine.execute reg bks d).success = true) :
    (ExecutionEngine.execute reg bks d).fallbacks_used =
      ((ExecutionEngine.executeTrace reg bks d).filter
        ChainEvent.isGenFailed).length ∧
    ∃ id m b, id ∈ d.model_id :: d.fallback_models ∧
      reg.get_model id = some m ∧
      (bks.find? (fun p => p.1 == m.backend)).map (fun p => p.2) = some b ∧
      (b.generate (apiName m)).success = true ∧
      (ExecutionEngine.execute reg bks d).model_used = m.display_name ∧
      (ExecutionEngine.execute reg bks d).response =
        (b.generate (apiName m)).text := by
  obtain ⟨hfb, rest⟩ := executeChain_success_shape
    (d.model_id :: d.fallback_models) 0 none
    (ExecutionEngine.executeTrace reg bks d)
    (ExecutionEngine.execute reg bks d) rfl h
  exact ⟨by simpa using hfb, rest⟩

/-- C5 witness: the concrete skipped-primary run. -/
theorem c5_witness :
    (ExecutionEngine.execute regC5 backendsC5 decisionC5).success = true ∧
    ((ExecutionEngine.execute regC5 backendsC5 decisionC5).fallbacks_used =
      ((ExecutionEngine.executeTrace regC5 backendsC5 decisionC5).filter
        ChainEvent.isGenFailed).length ∧
    ∃ id m b, id ∈ decisionC5.model_id :: decisionC5.fallback_models ∧
      regC5.get_model id = some m ∧
      (backendsC5.find? (fun p => p.1 == m.backend)).map (fun p => p.2) = some b ∧
      (b.generate (apiName m)).success = true ∧
      (ExecutionEngine.execute regC5 backendsC5 decisionC5).model_used =
        m.display_name ∧
      (ExecutionEngine.execute regC5 backendsC5 decisionC5).response =
        (b.generate (apiName m)).text) :=
  ⟨rfl, c5_fallbacks_used_counts_failed_attempts regC5 backendsC5 decisionC5 rfl⟩

/-- C6 (counterexample): with no models registered at all — so no model is
available anywhere — `IntelligentRouter.route` raises (the source
`RuntimeError`) instead of returning a decision referencing a designated
no-op unavailable model; no such designated model exists in the code. -/
theorem c6_counterexample :
    routerEmpty.route "hello" 1 =
      Except.error "No models available in registry" := rfl

/-- C6 (amended): when no model is available but at least one is registered,
`route` returns (rather than raising) a decision whose primary is one of the
registered, unavailable models, and `ExecutionEngine.execute` surfaces the
run as a fatal failure when every backend probe is down; only an empty
registry makes `route` raise. -/
theorem c6_no_models_available_behavior
    (rt : IntelligentRouter) (q : String) (mc : ℚ)
    (bks : List (String × Backend))
    (h1 : rt.registry.models ≠ [])
    (h2 : ∀ m ∈ rt.registry.models, m.available = false)
    (h3 : ∀ p ∈ bks, p.2.is_available = false) :
    ∃ d, rt.route q mc = Except.ok d ∧
      (∃ m, m ∈ rt.registry.models ∧ m.available = false ∧
        d.model_id = m.model_id) ∧
      (ExecutionEngine.execute rt.registry bks d).success = false := by
  obtain ⟨d, hd, m, hmem, hid⟩ := route_total q mc h1
  exact ⟨d, hd, ⟨m, hmem, h2 m hmem, hid⟩,
    executeChain_backends_down h3 _ 0 none⟩

/-- C6 witness: one registered unavailable model, one down backend. -/
theorem c6_witness :
    routerC6.registry.models ≠ [] ∧
    (∀ m ∈ routerC6.registry.models, m.available = false) ∧
    (∀ p ∈ backendsC6, p.2.is_available = false) ∧
    (∃ d, routerC6.route "q" 1 = Except.ok d ∧
      (∃ m, m ∈ routerC6.registry.models ∧ m.available = false ∧
        d.model_id = m.model_id) ∧
      (ExecutionEngine.execute routerC6.registry backendsC6 d).success = false) :=
  ⟨by decide, by decide, by decide,
    c6_no_models_available_behavior routerC6 "q" 1 backendsC6
      (by decide) (by decide) (by decide)⟩

/-- C7 (counterexample): `execute_tool` invokes a tool whose required
parameter is missing — `validate_tool_parameters` rejects the same call —
and returns the tool's own result instead of a validation error: parameters
are never validated on the direct tool invocation path. -/
theorem c7_counterexample :
    (execute_tool toolRegC7 false false "disk_usage" []).1 = true ∧
    (execute_tool toolRegC7 false false "disk_usage" []).2 =
      Except.ok "tool ran" ∧
    toolRegC7.validate_tool_parameters "disk_usage" [] =
      (false, some "Missing required parameter: path") :=
  ⟨rfl, rfl, rfl⟩

/-- C7 (amended): for every existing tool, once any required confirmation is
granted (or none is required), `execute_tool` invokes the tool directly with
the given parameters — no registry validation is consulted and no
TOOL_VALIDATION outcome exists; the result is exactly the tool's own
result, with a tool exception wrapped as a `ToolExecutionError`. -/
theorem c7_execute_tool_skips_validation
    (reg : ToolRegistry) (hm app : Bool) (name : String)
    (params : List (String × String)) (tool : Tool)
    (h1 : reg.get_tool name = some tool)
    (h2 : tool.metadata.requires_confirmation = false ∨ hm = false ∨ app = true) :
    execute_tool reg hm app name params =
      (match tool.execute params with
       | .ok r => (true, Except.ok r)
       | .error e => (true, Except.error (.execFailed name e))) := by
  simp only [execute_tool, h1]
  by_cases hc : (tool.metadata.requires_confirmation && hm) = true
  · have happ : app = true := by
      rw [Bool.and_eq_true] at hc
      rcases h2 with h2 | h2 | h2
      · exact absurd hc.1 (by simp [h2])
      · exact absurd hc.2 (by simp [h2])
      · exact h2
    rw [if_pos hc, if_neg (by simp [happ])]
  · rw [if_neg hc]

/-- C7 witness: the confirmation-free tool invoked with empty parameters. -/
theorem c7_witness :
    toolRegC7.get_tool "disk_usage" = some toolC7 ∧
    (toolC7.metadata.requires_confirmation = false ∨ False ∨ False) ∧
    execute_tool toolRegC7 false false "disk_usage" [] =
      (match toolC7.execute [] with
       | .ok r => (true, Except.ok r)
       | .error e => (true, Except.error (.execFailed "disk_usage" e))) :=
  ⟨rfl, Or.inl rfl,
    c7_execute_tool_skips_validation toolRegC7 false false "disk_usage" [] toolC7
      rfl (Or.inl rfl)⟩

/-- C8: the BALANCED strategy refines the spec's case split exactly: SPEED
for TRIVIAL and SIMPLE, QUALITY for COMPLEX and EXPERT, and AUTO with the
cost ceiling scaled to `max_cost * 0.7` for MODERATE. -/
theorem c8_balanced_strategy_refinement (reg : ModelRegistry)
    (c : TaskClassification) (mc : ℚ) :
    route_balanced reg c mc = balanced_per_spec reg c mc := by
  unfold route_balanced balanced_per_spec
  cases hc : c.complexity <;> simp [hc]

/-- C9: over every sequence of `record_execution` calls from fresh stats,
total attempts equal successes plus failures, all three counters are
monotonically non-decreasing, and the accumulated execution time is the sum
of the elapsed times of the successful calls only. -/
theorem c9_tool_stats_invariants :
    (∀ evs : List (Bool × ℚ),
      (applyExecutions ToolExecutionStats.init evs).total_executions =
        (applyExecutions ToolExecutionStats.init evs).successful_executions +
          (applyExecutions ToolExecutionStats.init evs).failed_executions) ∧
    (∀ evs extra : List (Bool × ℚ),
      (applyExecutions ToolExecutionStats.init evs).total_executions ≤
        (applyExecutions ToolExecutionStats.init (evs ++ extra)).total_executions ∧
      (applyExecutions ToolExecutionStats.init evs).successful_executions ≤
        (applyExecutions ToolExecutionStats.init
          (evs ++ extra)).successful_executions ∧
      (applyExecutions ToolExecutionStats.init evs).failed_executions ≤
        (applyExecutions ToolExecutionStats.init (evs ++ extra)).failed_executions) ∧
    (∀ evs : List (Bool × ℚ),
      (applyExecutions ToolExecutionStats.init evs).total_execution_time =
        ((evs.filter (fun e => e.1)).map (fun e => e.2)).sum) := by
  refine ⟨fun evs => applyExecutions_total_eq evs _ rfl, fun evs extra => ?_,
    fun evs => by
      simpa [ToolExecutionStats.init] using
        applyExecutions_time evs ToolExecutionStats.init⟩
  have happ : applyExecutions ToolExecutionStats.init (evs ++ extra) =
      applyExecutions (applyExecutions ToolExecutionStats.init evs) extra := by
    simp [applyExecutions, List.foldl_append]
  rw [happ]
  exact applyExecutions_monotone extra _

/-- C10: whenever at least one model is registered, `route` returns a
decision (it raises only when the registry holds no models at all), and when
additionally every registered model is unavailable, the returned primary is
a registered model with `available = false`. -/
theorem c10_route_with_unavailable_models (rt : IntelligentRouter) (q : String)
    (mc : ℚ) (h1 : rt.registry.models ≠ []) :
    (∃ d, rt.route q mc = Except.ok d) ∧
    ((∀ m ∈ rt.registry.models, m.available = false) →
      ∃ d m, rt.route q mc = Except.ok d ∧ m ∈ rt.registry.models ∧
        m.available = false ∧ d.model_id = m.model_id) := by
  obtain ⟨d, hd, m, hmem, hid⟩ := route_total q mc h1
  exact ⟨⟨d, hd⟩, fun h2 => ⟨d, m, hd, hmem, h2 m hmem, hid⟩⟩

/-- C10 witness: a registry holding exactly one unavailable model under the
QUALITY strategy. -/
theorem c10_witness :
    routerC10.registry.models ≠ [] ∧
    ((∃ d, routerC10.route "q" 1 = Except.ok d) ∧
     ((∀ m ∈ routerC10.registry.models, m.available = false) →
       ∃ d m, routerC10.route "q" 1 = Except.ok d ∧
         m ∈ routerC10.registry.models ∧ m.available = false ∧
         d.model_id = m.model_id)) :=
  ⟨by decide, c10_route_with_unavailable_models routerC10 "q" 1 (by decide)⟩

end PocketPortal
